import Mathlib

/-!
# Verification of the delia / dicom2hdf series-resolution and query-strategy engine

Shallow embedding of the core pipeline of the `MedPhysUL/delia` repository:
DICOM series grouping, segmentation reference resolution, tag-value
selection, query-strategy assembly, per-patient failure tracking and the
patient iterator.  Each definition translates one Python function of the
source tree; theorems settle the specification's claims about them.
-/

namespace Delia

/-- A DICOM header, restricted to the attributes the core pipeline reads.
Optional fields model `hasattr` checks on the pydicom dataset; `tagValue`
is the textual value of the configured selection tag (default
`SeriesDescription`), covering both the `.value` string case and the
`.repval` textual-representation case of
`SpecificTagPatientDataFactory.create_patient_data`. -/
structure DicomHeader where
  patientID : String
  seriesInstanceUID : String
  modality : String
  seriesDescription : Option String
  sliceLocation : Option Int
  tagValue : String
deriving DecidableEq, Repr

/-- `SegmentationStrategies.get_available_modalities` (segmentation_strategy.py):
the recognized segmentation modalities, one per member of the
`SegmentationStrategies` enum. -/
def availableModalities : List String := ["SEG", "RTSTRUCT"]

/-! ## LabelSpec validation
`PatientsDataExtractor.series_descriptions` setter
(delia/extractors/patients_data_extractor.py, lines 146-170) and the
identical `PatientDataGenerator.series_descriptions` setter
(dicom2hdf/data_generators/patient_data_generator.py, lines 108-133). -/

/-- A LabelSpec: insertion-ordered mapping from label to the list of
accepted tag values (`Dict[str, List[str]].items()`). -/
abbrev LabelSpec := List (String × List String)

/-- `set(previous_items[1]) & set(current_items[1])` — the values shared by
two accepted-value lists (as a list; nonemptiness is all the setter uses). -/
def setIntersection (l1 l2 : List String) : List String :=
  l1.filter (fun v => l2.contains v)

/-- The loop `for previous_items, current_items in zip(items, items[1:])` of
the series_descriptions setter: returns the first consecutive pair of items
whose accepted-value lists intersect, together with the intersection. -/
def findConsecutiveOverlap : LabelSpec → Option ((String × List String) × (String × List String) × List String)
  | [] => none
  | [_] => none
  | a :: b :: rest =>
    if (setIntersection a.2 b.2).isEmpty then
      findConsecutiveOverlap (b :: rest)
    else
      some (a, b, setIntersection a.2 b.2)

/-- The error raised by the setter (`AssertionError`), carrying the two
offending labels, their accepted-value lists and the overlapping values the
message names. -/
structure OverlapError where
  previousLabel : String
  previousValues : List String
  currentLabel : String
  currentValues : List String
  overlappingValues : List String
deriving DecidableEq, Repr

/-- `PatientsDataExtractor.series_descriptions` setter: validates the given
LabelSpec by intersecting the accepted-value lists of *consecutive* items
and, on a nonempty intersection, raises an `AssertionError` naming the
overlapping values; otherwise stores the spec unchanged. -/
def setSeriesDescriptions (seriesDescriptions : LabelSpec) :
    Except OverlapError LabelSpec :=
  match findConsecutiveOverlap seriesDescriptions with
  | some (p, c, inter) => .error ⟨p.1, p.2, c.1, c.2, inter⟩
  | none => .ok seriesDescriptions

/-- The accepted-value lists of distinct labels are pairwise disjoint
(the spec's construction-time invariant). -/
def PairwiseDisjointValues (spec : LabelSpec) : Prop :=
  spec.Pairwise (fun a b => ∀ v, v ∈ a.2 → v ∉ b.2)

instance (spec : LabelSpec) : Decidable (PairwiseDisjointValues spec) :=
  inferInstanceAs (Decidable (List.Pairwise _ spec))

/-- Some adjacent (consecutive in insertion order) pair of items of the spec
has intersecting accepted-value lists. -/
def HasAdjacentOverlap : LabelSpec → Prop
  | [] => False
  | [_] => False
  | a :: b :: rest => (∃ v, v ∈ a.2 ∧ v ∈ b.2) ∨ HasAdjacentOverlap (b :: rest)

instance : (spec : LabelSpec) → Decidable (HasAdjacentOverlap spec)
  | [] => isFalse (fun h => h)
  | [_] => isFalse (fun h => h)
  | _ :: b :: rest =>
    have : Decidable (HasAdjacentOverlap (b :: rest)) := instDecidableHasAdjacentOverlap (b :: rest)
    inferInstanceAs (Decidable (_ ∨ _))

/-! ## Reference Resolver
`BasePatientDataFactory.get_segmentation_reference_uid`
(delia/readers/patient_data/factories/base_patient_data_factory.py,
lines 80-107). -/

/-- One entry of an `RTReferencedSeriesSequence`. -/
structure RTSeriesItem where
  seriesInstanceUID : String
deriving DecidableEq, Repr

/-- One entry of an `RTReferencedStudySequence`, holding its nested
`RTReferencedSeriesSequence`. -/
structure RTStudyItem where
  rtReferencedSeriesSequence : List RTSeriesItem
deriving DecidableEq, Repr

/-- One entry of a `ReferencedFrameOfReferenceSequence`, holding its nested
`RTReferencedStudySequence`. -/
structure FrameOfReferenceItem where
  rtReferencedStudySequence : List RTStudyItem
deriving DecidableEq, Repr

/-- One entry of a `ReferencedSeriesSequence`. -/
structure ReferencedSeriesItem where
  seriesInstanceUID : String
deriving DecidableEq, Repr

/-- The header of a segmentation DICOM file, restricted to the two
reference-UID shapes the resolver reads.  `none` models a missing
attribute (`hasattr` is false); `some` with an explicit list models a
present sequence attribute. -/
structure SegmentationHeader where
  referencedSeriesSequence : Option (List ReferencedSeriesItem)
  referencedFrameOfReferenceSequence : Option (List FrameOfReferenceItem)
deriving DecidableEq, Repr

/-- Errors of the resolver: `missingReference` is the `AssertionError`
raised when neither header shape is present; `indexAccessError` models part
`[0]` of a present-but-empty pydicom sequence (an `IndexError` in the
source, distinct from the `AssertionError`). -/
inductive ReferenceResolutionError
  | missingReference
  | indexAccessError
deriving DecidableEq, Repr

/-- `BasePatientDataFactory.get_segmentation_reference_uid`: returns
`ReferencedSeriesSequence[0].SeriesInstanceUID` when the attribute is
present, otherwise follows
`ReferencedFrameOfReferenceSequence[0].RTReferencedStudySequence[0]
.RTReferencedSeriesSequence[0].SeriesInstanceUID`, and raises an
`AssertionError` when neither attribute is present. -/
def getSegmentationReferenceUid (h : SegmentationHeader) :
    Except ReferenceResolutionError String :=
  match h.referencedSeriesSequence with
  | some seq =>
    match seq.head? with
    | some item => .ok item.seriesInstanceUID
    | none => .error .indexAccessError
  | none =>
    match h.referencedFrameOfReferenceSequence with
    | some frames =>
      match frames.head? with
      | some frame =>
        match frame.rtReferencedStudySequence.head? with
        | some study =>
          match study.rtReferencedSeriesSequence.head? with
          | some series => .ok series.seriesInstanceUID
          | none => .error .indexAccessError
        | none => .error .indexAccessError
      | none => .error .indexAccessError
    | none => .error .missingReference

/-! ## Series Grouper
`DicomReader.__get_paths_to_dicoms_from_series` and
`DicomReader.__get_series_data_dict`
(dicom2hdf/readers/image/dicom_reader.py, lines 111-188).  A file on disk
is modelled as a pair of its path and the DICOM header `pydicom.dcmread`
would return for that path, so re-reading the header of `paths[0]` in the
source corresponds to taking the header paired with the first path. -/

/-- A DICOM file of a patient folder: its path and its header. -/
abbrev FileEntry := String × DicomHeader

/-- `DicomReader._get_series_description`: the header's SeriesDescription
when present, else the sentinel `"Unknown"` (`DicomReader.UNKNOWN`). -/
def getSeriesDescription (h : DicomHeader) : String :=
  h.seriesDescription.getD "Unknown"

/-- One step of
`paths_and_headers_for_each_series[header.SeriesInstanceUID].append(...)`:
append the file to the bucket of its series UID, creating a new bucket at
the end on first sight of the UID (`defaultdict(list)` preserves key
insertion order). -/
def addToBucket : List (String × List FileEntry) → FileEntry → List (String × List FileEntry)
  | [], f => [(f.2.seriesInstanceUID, [f])]
  | (uid, bucket) :: rest, f =>
    if uid = f.2.seriesInstanceUID then (uid, bucket ++ [f]) :: rest
    else (uid, bucket) :: addToBucket rest f

/-- The bucketing loop of `__get_paths_to_dicoms_from_series`: group the
discovered files by their header's SeriesInstanceUID, in discovery order. -/
def groupBySeries (files : List FileEntry) : List (String × List FileEntry) :=
  files.foldl addToBucket []

/-- The `sorted(result, key=lambda s: s[1].SliceLocation)` comparison:
ascending order of the headers' slice locations (only evaluated on entries
whose slice location is present). -/
def sliceLocationLe (f g : FileEntry) : Bool :=
  decide (f.2.sliceLocation.getD 0 ≤ g.2.sliceLocation.getD 0)

/-- The `AttributeError` raised by the sort key when
`hasattr(result[1][1], "SliceLocation")` holds but some other file of the
bucket lacks the attribute. -/
inductive SeriesOrderingError
  | missingSliceLocation
deriving DecidableEq, Repr

/-- The per-bucket body of `__get_paths_to_dicoms_from_series`
(lines 135-146): a bucket with more than one file is sorted ascending by
slice location when `result[1]`'s header exposes one (the sort reads every
file's slice location and fails on a file that lacks it), kept in discovery
order when `result[1]` lacks the attribute, and a single-file bucket is
kept as is.  The source maps each tuple to its path at this point; the
embedding keeps the (path, header) pairs so the representative header of
the series can still be looked up. -/
def orderSeriesPairs (result : List FileEntry) :
    Except SeriesOrderingError (List FileEntry) :=
  if result.length ≠ 1 then
    match result.get? 1 with
    | some second =>
      if second.2.sliceLocation.isSome then
        if result.all (fun f => f.2.sliceLocation.isSome) then
          .ok (result.mergeSort sliceLocationLe)
        else .error .missingSliceLocation
      else .ok result
    | none => .ok result
  else .ok result

/-- `DicomReader.SeriesData`: one discovered series — its description (with
the `"Unknown"` sentinel substituted), its ordered file paths, and the
representative header of its first file. -/
structure SeriesData where
  seriesDescription : String
  pathsToDicomsFromSeries : List String
  dicomHeader : DicomHeader
deriving DecidableEq, Repr

/-- Errors of `__get_series_data_dict`: the sort's `AttributeError`
propagated from bucket ordering, the two `AssertionError`s of the patient
ID check, and the (unreachable) `IndexError` of `paths[0]` on an empty
bucket. -/
inductive SeriesGroupingError
  | sliceLocationAttributeError
  | emptySeriesBucket
  | noDicomFiles
  | multiplePatientIds
deriving DecidableEq, Repr

/-- The per-series body of the loop of `__get_series_data_dict`
(lines 161-171): order the bucket, take the header of the first path as the
representative header, and build the `SeriesData`. -/
def buildSeriesEntry (uidBucket : String × List FileEntry) :
    Except SeriesGroupingError (String × SeriesData) :=
  match orderSeriesPairs uidBucket.2 with
  | .error _ => .error .sliceLocationAttributeError
  | .ok [] => .error .emptySeriesBucket
  | .ok (rep :: rest) =>
    .ok (uidBucket.1,
      ⟨getSeriesDescription rep.2, (rep :: rest).map (fun f => f.1), rep.2⟩)

/-- The loop of `__get_series_data_dict` over all buckets, first error
aborting. -/
def buildSeriesEntries :
    List (String × List FileEntry) → Except SeriesGroupingError (List (String × SeriesData))
  | [] => .ok []
  | b :: rest => do
    let e ← buildSeriesEntry b
    let es ← buildSeriesEntries rest
    .ok (e :: es)

/-- `DicomReader.__get_series_data_dict`: group the files by series, build
the per-series data, collect the set of patient IDs of the representative
headers, and raise an `AssertionError` when that set is empty (no DICOM
files) or has more than one element (multiple patient IDs). -/
def getSeriesDataDict (files : List FileEntry) :
    Except SeriesGroupingError (List (String × SeriesData)) := do
  let seriesDataList ← buildSeriesEntries (groupBySeries files)
  let allPatientIds := (seriesDataList.map (fun s => s.2.dicomHeader.patientID)).dedup
  if allPatientIds.length = 0 then .error .noDicomFiles
  else if allPatientIds.length > 1 then .error .multiplePatientIds
  else .ok seriesDataList

/-- The partition of the series dictionary (lines 182-186): series whose
modality is a segmentation modality fill
`_segmentations_series_data_dict`, all others fill
`_images_series_data_dict`. -/
def imagesSeriesDataDict (seriesDataList : List (String × SeriesData)) :
    List (String × SeriesData) :=
  seriesDataList.filter
    (fun s => !(availableModalities.contains s.2.dicomHeader.modality))

/-! ## Images and patient data factories
`DicomReader.get_images_data` (dicom2hdf/readers/image/dicom_reader.py,
lines 244-291), `DefaultPatientDataFactory.create_patient_data` and
`SpecificTagPatientDataFactory.create_patient_data`
(delia/readers/patient_data/factories/patient_data_factories.py), and
`PatientDataQueryContext.patient_data_query_strategy`
(delia/readers/patient_data/patient_data_query_context.py, lines 60-73). -/

/-- `ImageDataModel` (data_model.py): the image's dicom header, its file
paths, and the mutable `series_key` / `transforms_key` fields, both `None`
until assigned.  The decoded SimpleITK volume is owned by the external
volume decoder and carries no information the core reads. -/
structure ImageDataModel where
  dicomHeader : DicomHeader
  pathsToDicoms : List String
  seriesKey : Option String := none
  transformsKey : Option String := none
deriving DecidableEq, Repr

/-- `DicomReader.get_images_data` with its `remove_segmentations` flag: per
discovered series, skip it when `remove_segmentations` holds and its
modality is a segmentation modality; skip it when its series description is
the `"Unknown"` sentinel; otherwise hand its paths to the external volume
decoder (`decodeOk` parameterizes the external SimpleITK reconstruction)
and drop the series with a logged error when that raises `RuntimeError`. -/
def getImagesData (decodeOk : SeriesData → Bool) (removeSegmentations : Bool)
    (seriesDataList : List (String × SeriesData)) : List ImageDataModel :=
  seriesDataList.filterMap (fun kv =>
    if removeSegmentations && availableModalities.contains kv.2.dicomHeader.modality then
      none
    else if kv.2.seriesDescription = "Unknown" then
      none
    else if decodeOk kv.2 then
      some { dicomHeader := kv.2.dicomHeader,
             pathsToDicoms := kv.2.pathsToDicomsFromSeries }
    else
      none)

/-- A segmentation file handed to a factory: its path and the header
`DicomReader.get_dicom_header` reads from it.  The per-organ label-map
extraction (`SegmentationReader.get_segmentation_data`) is external; an
attached segmentation record is identified by its file. -/
structure SegmentationFile where
  pathToSegmentation : String
  header : SegmentationHeader
deriving DecidableEq, Repr

/-- The reference UID of a segmentation when its resolution succeeds. -/
def resolvedReferenceUid (s : SegmentationFile) : Option String :=
  (getSegmentationReferenceUid s.header).toOption

/-- The inner loop of both factories' `create_patient_data`: for each
segmentation path, read the header, resolve the reference UID (the
resolver's `AssertionError` propagates), and attach the segmentation when
the reference UID equals the image's SeriesInstanceUID. -/
def attachMatchingSegmentations (image : ImageDataModel) :
    List SegmentationFile → Except ReferenceResolutionError (List SegmentationFile)
  | [] => .ok []
  | s :: rest => do
    let refUid ← getSegmentationReferenceUid s.header
    let tail ← attachMatchingSegmentations image rest
    if image.dicomHeader.seriesInstanceUID = refUid then .ok (s :: tail)
    else .ok tail

/-- `ImageAndSegmentationDataModel`: one output entry.  The source appends
an entry with the segmentation list when it is nonempty and an entry
without segmentations otherwise; both cases are one entry whose
segmentation list may be empty. -/
structure ImageAndSegmentationDataModel where
  image : ImageDataModel
  segmentations : List SegmentationFile := []
deriving DecidableEq, Repr

/-- `PatientDataModel`: the assembled record for one patient. -/
structure PatientDataModel where
  patientId : String
  patientPath : String
  data : List ImageAndSegmentationDataModel
deriving DecidableEq, Repr

/-- The image loop of `DefaultPatientDataFactory.create_patient_data`
(lines 72-96): one entry per image of `self._images_data`, with every
matching segmentation attached. -/
def defaultFactoryLoop (segs : List SegmentationFile) :
    List ImageDataModel → Except ReferenceResolutionError (List ImageAndSegmentationDataModel)
  | [] => .ok []
  | image :: rest => do
    let segmentations ← attachMatchingSegmentations image segs
    let tail ← defaultFactoryLoop segs rest
    .ok ({ image := image, segmentations := segmentations } :: tail)

/-- Errors of the factories' `create_patient_data`:
`segmentationReference` propagates the reference resolver's errors raised
inside the image loop; `emptyImagesData` is the `IndexError` raised by the
`BasePatientDataFactory.patient_id` property (`self._images_data[0]`) when
`get_images_data` kept no image for the patient. -/
inductive FactoryError
  | segmentationReference (e : ReferenceResolutionError)
  | emptyImagesData
deriving DecidableEq, Repr

/-- `BasePatientDataFactory.patient_id`
(base_patient_data_factory.py, lines 66-78):
`self._images_data[0].dicom_header.PatientID` — an `IndexError` when the
factory's image list is empty. -/
def factoryPatientId : List ImageDataModel → Except FactoryError String
  | [] => .error .emptyImagesData
  | img :: _ => .ok img.dicomHeader.patientID

/-- `DefaultPatientDataFactory.create_patient_data`: run the image loop,
then build `PatientDataModel(patient_id=self.patient_id, ...)` — the
`patient_id` property is evaluated after the loop and raises `IndexError`
when no image was kept. -/
def defaultCreatePatientData (patientPath : String)
    (imagesData : List ImageDataModel) (segs : List SegmentationFile) :
    Except FactoryError PatientDataModel :=
  match defaultFactoryLoop segs imagesData with
  | .error e => .error (.segmentationReference e)
  | .ok data =>
    match factoryPatientId imagesData with
    | .error e => .error e
    | .ok patientId => .ok ⟨patientId, patientPath, data⟩

/-- The loop `for series_key, list_of_tag_values in self._tag_values.items()`
with its `break`: the first label (in insertion order) whose accepted-value
list contains the image's tag value. -/
def firstMatchingSeriesKey (tagValues : LabelSpec) (tagValue : String) : Option String :=
  match tagValues with
  | [] => none
  | kv :: rest =>
    if kv.2.contains tagValue then some kv.1
    else firstMatchingSeriesKey rest tagValue

/-- The image loop of `SpecificTagPatientDataFactory.create_patient_data`
(lines 159-198): an image whose tag value is accepted by some label gets
that (first matching) label as its `series_key` and is appended once with
its matching segmentations; an image matching no label is not appended and,
when `erase_unused_dicom_files` is set, its DICOM files are removed from
disk (`BasePatientDataFactory.erase_dicom_files`) — the second component
collects the removed paths in order. -/
def specificTagFactoryLoop (tagValues : LabelSpec) (segs : List SegmentationFile)
    (eraseUnusedDicomFiles : Bool) :
    List ImageDataModel →
      Except ReferenceResolutionError (List ImageAndSegmentationDataModel × List String)
  | [] => .ok ([], [])
  | image :: rest =>
    match firstMatchingSeriesKey tagValues image.dicomHeader.tagValue with
    | some key => do
      let segmentations ← attachMatchingSegmentations image segs
      let (data, erased) ← specificTagFactoryLoop tagValues segs eraseUnusedDicomFiles rest
      .ok ({ image := { image with seriesKey := some key },
             segmentations := segmentations } :: data, erased)
    | none => do
      let (data, erased) ← specificTagFactoryLoop tagValues segs eraseUnusedDicomFiles rest
      .ok (data, (if eraseUnusedDicomFiles then image.pathsToDicoms else []) ++ erased)

/-- `SpecificTagPatientDataFactory.create_patient_data`, with the list of
file paths the run removed from disk as its second component.  As in the
default factory, `PatientDataModel(patient_id=self.patient_id, ...)` is
built after the loop, and the `patient_id` property raises `IndexError`
when the factory's image list is empty. -/
def specificTagCreatePatientData (patientPath : String)
    (tagValues : LabelSpec) (segs : List SegmentationFile) (erase : Bool)
    (imagesData : List ImageDataModel) :
    Except FactoryError (PatientDataModel × List String) :=
  match specificTagFactoryLoop tagValues segs erase imagesData with
  | .error e => .error (.segmentationReference e)
  | .ok pair =>
    match factoryPatientId imagesData with
    | .error e => .error e
    | .ok patientId => .ok (⟨patientId, patientPath, pair.1⟩, pair.2)

/-- Closed form of the entries the tag-value factory produces: one entry
per image whose tag value is accepted by some label, carrying the first
matching label as its `series_key` and its matching segmentations. -/
def specificTagOutputEntries (tagValues : LabelSpec) (segs : List SegmentationFile)
    (imagesData : List ImageDataModel) : List ImageAndSegmentationDataModel :=
  imagesData.filterMap (fun img =>
    (firstMatchingSeriesKey tagValues img.dicomHeader.tagValue).map
      (fun key =>
        { image := { img with seriesKey := some key }
          segmentations := segs.filter
            (fun s => resolvedReferenceUid s ==
              some img.dicomHeader.seriesInstanceUID) }))

/-- The two terminal strategies of `PatientDataQueryStrategies`. -/
inductive PatientDataQueryStrategyKind
  | default
  | tagValue
deriving DecidableEq, Repr

/-- `PatientDataQueryContext.patient_data_query_strategy`:
`if self._tag_values:` — the tag-value strategy iff the tag-values dict is
neither `None` nor empty (Python truthiness). -/
def patientDataQueryStrategy : Option LabelSpec → PatientDataQueryStrategyKind
  | none => .default
  | some [] => .default
  | some (_ :: _) => .tagValue

/-- `PatientDataQueryContext.create_patient_data`: dispatch to the factory
of the chosen strategy.  The default factory contains no call to
`erase_dicom_files`, so its removed-paths component is empty whatever the
flag. -/
def createPatientData (patientPath : String) (tagValues : Option LabelSpec)
    (imagesData : List ImageDataModel) (segs : List SegmentationFile) (erase : Bool) :
    Except FactoryError (PatientDataModel × List String) :=
  match patientDataQueryStrategy tagValues with
  | .default =>
    (defaultCreatePatientData patientPath imagesData segs).map
      (fun pdm => (pdm, []))
  | .tagValue =>
    specificTagCreatePatientData patientPath (tagValues.getD []) segs
      erase imagesData

/-- The loop of `set_transforms_keys` (dicom2hdf/transforms/tools.py,
lines 20-46) with its accumulated `keys` list: a truthy `series_key` (set
and nonempty — Python truthiness of `str`) becomes the image's
`transforms_key`, otherwise the image's modality does; a duplicate key
raises an `AssertionError`. -/
def setTransformsKeysLoop (keys : List String) :
    List ImageAndSegmentationDataModel →
      Except String (List ImageAndSegmentationDataModel)
  | [] => .ok []
  | e :: rest =>
    match e.image.seriesKey with
    | some sk =>
      if sk ≠ "" then
        if keys.contains sk then .error "Series key already in dict."
        else do
          let tail ← setTransformsKeysLoop (keys ++ [sk]) rest
          .ok ({ e with image := { e.image with transformsKey := some sk } } :: tail)
      else
        if keys.contains e.image.dicomHeader.modality then
          .error "Modality already in dict."
        else do
          let tail ← setTransformsKeysLoop (keys ++ [e.image.dicomHeader.modality]) rest
          .ok ({ e with
                 image := { e.image with
                            transformsKey := some e.image.dicomHeader.modality } } :: tail)
    | none =>
      if keys.contains e.image.dicomHeader.modality then
        .error "Modality already in dict."
      else do
        let tail ← setTransformsKeysLoop (keys ++ [e.image.dicomHeader.modality]) rest
        .ok ({ e with
               image := { e.image with
                          transformsKey := some e.image.dicomHeader.modality } } :: tail)

/-- `set_transforms_keys`: assign every entry its transforms key, starting
from an empty `keys` accumulator. -/
def setTransformsKeys (data : List ImageAndSegmentationDataModel) :
    Except String (List ImageAndSegmentationDataModel) :=
  setTransformsKeysLoop [] data

/-! ## Failure tracking and the patient iterator
`PatientDataReader.check_availability_of_given_tag_value` /
`record_failed_images`
(delia/readers/patient_data/patient_data_reader.py, lines 175-202) and
`PatientsDataExtractor` (delia/extractors/patients_data_extractor.py). -/

/-- `PatientWhoFailed`: the per-patient failure record surfaced to the
caller — the patient id, the failed labels with their accepted values, and
the tag values actually available for the patient. -/
structure PatientWhoFailed where
  id : String
  failedImages : List (String × List String)
  availableSeriesDescriptions : List String
deriving DecidableEq, Repr

/-- `PatientDataReader.available_tag_values`: the configured tag's value of
each of the patient's non-segmentation series headers. -/
def availableTagValues (imagesDicomHeaders : List DicomHeader) : List String :=
  imagesDicomHeaders.map (fun h => h.tagValue)

/-- `PatientDataReader.check_availability_of_given_tag_value` together with
`record_failed_images`: every label none of whose accepted values occurs
among the available tag values is appended to `failed_images`, in label
order; no exception is raised and the remaining labels are still checked. -/
def checkAvailabilityOfGivenTagValue (tagValues : LabelSpec)
    (available : List String) : List String :=
  tagValues.filterMap (fun kv =>
    if kv.2.any (fun v => available.contains v) then none else some kv.1)

/-- The dict lookup `self.series_descriptions[image]` of
`PatientsDataExtractor.send` (only reached for keys of the dict). -/
def lookupTagValues (tagValues : LabelSpec) (k : String) : List String :=
  ((tagValues.find? (fun kv => kv.1 == k)).map (fun kv => kv.2)).getD []

/-- The failure-record construction of `PatientsDataExtractor.send`
(lines 309-318): when the reader recorded failed labels, a
`PatientWhoFailed` carrying the failed labels with their accepted values
and the available tag values is appended. -/
def mkPatientWhoFailed (patientId : String) (tagValues : LabelSpec)
    (available : List String) : Option PatientWhoFailed :=
  let failed := checkAvailabilityOfGivenTagValue tagValues available
  if failed.isEmpty then none
  else some ⟨patientId, failed.map (fun k => (k, lookupTagValues tagValues k)),
             available⟩

/-- One patient's processing inside `PatientsDataExtractor.send`: the
availability check runs only when a tag-values dict was supplied
(`PatientDataReader.__init__`), and the dataset is assembled by
`get_patient_dataset` regardless of the recorded failures. -/
def sendStep (patientId patientPath : String) (tagValues : Option LabelSpec)
    (imagesDicomHeaders : List DicomHeader) (imagesData : List ImageDataModel)
    (segs : List SegmentationFile) (erase : Bool) :
    Option PatientWhoFailed ×
      Except FactoryError (PatientDataModel × List String) :=
  (tagValues.bind
     (fun tv => mkPatientWhoFailed patientId tv (availableTagValues imagesDicomHeaders)),
   createPatientData patientPath tagValues imagesData segs erase)

/-- The state of a `PatientsDataExtractor`: the listing of patient folders
(the `os.listdir` result), the configuration, and the mutable iteration
state.  Field defaults embed the constructor's default arguments —
in particular `erase_unused_dicom_files: bool = False`. -/
structure PatientsDataExtractor where
  pathsToPatientsFolders : List String
  tagValues : Option LabelSpec := none
  eraseUnusedDicomFiles : Bool := false
  currentIndex : Nat := 0
  patientsWhoFailed : List PatientWhoFailed := []
deriving DecidableEq, Repr

/-- The exceptions the iterator can raise.  `StopIteration` is the
generator protocol's end-of-sequence signal; `generic` covers any other
exception type passed to `throw`. -/
inductive PyException
  | stopIteration
  | generic (typeName : String)
deriving DecidableEq, Repr

/-- `PatientsDataExtractor.throw(typ=StopIteration, ...)`: raises its
`typ` argument, which defaults to `StopIteration`; `send` calls it with no
argument. -/
def PatientsDataExtractor.throwDefaultException : PyException := .stopIteration

/-- The outcome of one `send` call: either the patient record of
`paths_to_patients_folders[current_index]` is produced together with the
advanced iterator state, or an exception is raised (leaving the state
unchanged, since the raise precedes the index increment). -/
inductive SendOutcome
  | yielded (patientIndex : Nat) (next : PatientsDataExtractor)
  | raised (e : PyException)
deriving DecidableEq, Repr

/-- The control flow of `PatientsDataExtractor.send` (lines 280-322): when
`current_index == len(self)` the call raises via `self.throw()`
(StopIteration); otherwise the patient at `current_index` is processed and
the index advances by one. -/
def PatientsDataExtractor.send (ex : PatientsDataExtractor) : SendOutcome :=
  if ex.currentIndex = ex.pathsToPatientsFolders.length then
    .raised PatientsDataExtractor.throwDefaultException
  else
    .yielded ex.currentIndex { ex with currentIndex := ex.currentIndex + 1 }

/-- `PatientsDataExtractor.reset`: return to the initial position and clear
the failure accumulation. -/
def PatientsDataExtractor.reset (ex : PatientsDataExtractor) : PatientsDataExtractor :=
  { ex with currentIndex := 0, patientsWhoFailed := [] }

theorem mem_setIntersection {l1 l2 : List String} {v : String} :
    v ∈ setIntersection l1 l2 ↔ v ∈ l1 ∧ v ∈ l2 := by
  simp [setIntersection]

theorem findConsecutiveOverlap_eq_none_of_pairwise :
    ∀ spec : LabelSpec, PairwiseDisjointValues spec → findConsecutiveOverlap spec = none := by
  intro spec
  induction spec with
  | nil => intro _; rfl
  | cons a tail ih =>
    intro h
    match tail with
    | [] => rfl
    | b :: rest =>
      have hdisj : ∀ v, v ∈ a.2 → v ∉ b.2 := by
        have := (List.pairwise_cons.mp h).1 b (List.mem_cons_self b rest)
        exact this
      have hempty : setIntersection a.2 b.2 = [] := by
        apply List.filter_eq_nil_iff.mpr
        intro v hv
        exact fun hc => hdisj v hv (List.elem_iff.mp hc)
      have htail : PairwiseDisjointValues (b :: rest) := (List.pairwise_cons.mp h).2
      simp [findConsecutiveOverlap, hempty, ih htail]

theorem findConsecutiveOverlap_none_iff :
    ∀ spec : LabelSpec, findConsecutiveOverlap spec = none ↔ ¬ HasAdjacentOverlap spec := by
  intro spec
  induction spec with
  | nil => simp [findConsecutiveOverlap, HasAdjacentOverlap]
  | cons a tail ih =>
    match tail with
    | [] => simp [findConsecutiveOverlap, HasAdjacentOverlap]
    | b :: rest =>
      by_cases hempty : (setIntersection a.2 b.2).isEmpty
      · have hnov : ¬ ∃ v, v ∈ a.2 ∧ v ∈ b.2 := by
          intro ⟨v, hv1, hv2⟩
          have : v ∈ setIntersection a.2 b.2 := mem_setIntersection.mpr ⟨hv1, hv2⟩
          rw [List.isEmpty_iff] at hempty
          simp [hempty] at this
        simp only [findConsecutiveOverlap, hempty, if_pos]
        rw [ih]
        show ¬ HasAdjacentOverlap (b :: rest) ↔ ¬ ((∃ v, v ∈ a.2 ∧ v ∈ b.2) ∨ HasAdjacentOverlap (b :: rest))
        constructor
        · intro h hor
          rcases hor with h1 | h2
          · exact hnov h1
          · exact h h2
        · intro h h2
          exact h (Or.inr h2)
      · simp only [findConsecutiveOverlap, hempty, if_neg, Bool.false_eq_true,
          not_false_eq_true, reduceCtorEq, false_iff]
        intro hno
        apply hno
        left
        rw [List.isEmpty_iff] at hempty
        rcases List.exists_mem_of_ne_nil _ hempty with ⟨v, hv⟩
        exact ⟨v, mem_setIntersection.mp hv |>.1, mem_setIntersection.mp hv |>.2⟩

theorem findConsecutiveOverlap_some_spec :
    ∀ (spec : LabelSpec) (p c : String × List String) (inter : List String),
      findConsecutiveOverlap spec = some (p, c, inter) →
      inter ≠ [] ∧ ∀ v ∈ inter, v ∈ p.2 ∧ v ∈ c.2 := by
  intro spec
  induction spec with
  | nil => intro p c inter h; simp [findConsecutiveOverlap] at h
  | cons a tail ih =>
    intro p c inter h
    match tail with
    | [] => simp [findConsecutiveOverlap] at h
    | b :: rest =>
      by_cases hempty : (setIntersection a.2 b.2).isEmpty
      · simp only [findConsecutiveOverlap, hempty, if_pos] at h
        exact ih p c inter h
      · simp only [findConsecutiveOverlap, hempty, if_neg, Bool.false_eq_true,
          not_false_eq_true, Option.some.injEq, Prod.mk.injEq] at h
        obtain ⟨hp, hc, hi⟩ := h
        subst hp; subst hc; subst hi
        refine ⟨fun hnil => ?_, fun v hv => mem_setIntersection.mp hv⟩
        rw [List.isEmpty_iff] at hempty
        exact hempty hnil

/-- C1 (amended): the `series_descriptions` / `tag_values` setter accepts
every LabelSpec whose accepted-value lists are pairwise disjoint; it raises
an `AssertionError` precisely when two *consecutive* labels (in insertion
order) have intersecting accepted-value lists, and the error names the
(nonempty) set of overlapping values of such an adjacent pair.  Overlaps
between non-adjacent labels are not detected. -/
theorem C1_label_spec_validation (spec : LabelSpec) :
    (PairwiseDisjointValues spec → setSeriesDescriptions spec = Except.ok spec) ∧
    ((∃ e, setSeriesDescriptions spec = Except.error e) ↔ HasAdjacentOverlap spec) ∧
    (∀ e, setSeriesDescriptions spec = Except.error e →
      e.overlappingValues ≠ [] ∧
      ∀ v ∈ e.overlappingValues, v ∈ e.previousValues ∧ v ∈ e.currentValues) := by
  refine ⟨fun h => ?_, ⟨fun ⟨e, he⟩ => ?_, fun h => ?_⟩, fun e he => ?_⟩
  · unfold setSeriesDescriptions
    rw [findConsecutiveOverlap_eq_none_of_pairwise spec h]
  · unfold setSeriesDescriptions at he
    by_contra hno
    rw [← findConsecutiveOverlap_none_iff] at hno
    rw [hno] at he
    exact Except.noConfusion he
  · unfold setSeriesDescriptions
    rcases hfind : findConsecutiveOverlap spec with _ | ⟨p, c, inter⟩
    · rw [findConsecutiveOverlap_none_iff] at hfind
      exact absurd h hfind
    · exact ⟨_, rfl⟩
  · unfold setSeriesDescriptions at he
    rcases hfind : findConsecutiveOverlap spec with _ | ⟨p, c, inter⟩
    · rw [hfind] at he; exact Except.noConfusion he
    · rw [hfind] at he
      injection he with he
      obtain ⟨hne, hmem⟩ := findConsecutiveOverlap_some_spec spec p c inter hfind
      subst he
      exact ⟨hne, hmem⟩

/-- C1 witness: a concrete pairwise-disjoint LabelSpec is accepted by the
setter. -/
theorem C1_label_spec_validation_witness :
    setSeriesDescriptions [("CT_THORAX", ["Thorax 1.0"]), ("PET", ["TEP FDG"])] =
      Except.ok [("CT_THORAX", ["Thorax 1.0"]), ("PET", ["TEP FDG"])] :=
  (C1_label_spec_validation _).1 (by decide)

/-- C7: the resolver returns the first entry of `ReferencedSeriesSequence`
when that attribute is present; otherwise it follows the nested chain
`ReferencedFrameOfReferenceSequence` → `RTReferencedStudySequence` →
`RTReferencedSeriesSequence` and returns the first entry's
`SeriesInstanceUID`; and when neither header shape is present it raises the
configuration error immediately (no default value, no deferral). -/
theorem C7_reference_resolution (h : SegmentationHeader) :
    (∀ item rest, h.referencedSeriesSequence = some (item :: rest) →
      getSegmentationReferenceUid h = .ok item.seriesInstanceUID) ∧
    (∀ frame frRest study stRest series seRest,
      h.referencedSeriesSequence = none →
      h.referencedFrameOfReferenceSequence = some (frame :: frRest) →
      frame.rtReferencedStudySequence = study :: stRest →
      study.rtReferencedSeriesSequence = series :: seRest →
      getSegmentationReferenceUid h = .ok series.seriesInstanceUID) ∧
    (h.referencedSeriesSequence = none →
      h.referencedFrameOfReferenceSequence = none →
      getSegmentationReferenceUid h = .error .missingReference) := by
  refine ⟨?_, ?_, ?_⟩
  · intro item rest hseq
    simp [getSegmentationReferenceUid, hseq]
  · intro frame frRest study stRest series seRest h1 h2 h3 h4
    simp [getSegmentationReferenceUid, h1, h2, h3, h4]
  · intro h1 h2
    simp [getSegmentationReferenceUid, h1, h2]

/-- C7 witness: the resolver evaluated on concrete headers exercising each
of the three branches. -/
theorem C7_reference_resolution_witness :
    getSegmentationReferenceUid ⟨some [⟨"1.2.3"⟩], none⟩ = .ok "1.2.3" ∧
    getSegmentationReferenceUid ⟨none, some [⟨[⟨[⟨"4.5.6"⟩]⟩]⟩]⟩ = .ok "4.5.6" ∧
    getSegmentationReferenceUid ⟨none, none⟩ = .error .missingReference :=
  ⟨(C7_reference_resolution ⟨some [⟨"1.2.3"⟩], none⟩).1 ⟨"1.2.3"⟩ [] rfl,
   (C7_reference_resolution ⟨none, some [⟨[⟨[⟨"4.5.6"⟩]⟩]⟩]⟩).2.1
     ⟨[⟨[⟨"4.5.6"⟩]⟩]⟩ [] ⟨[⟨"4.5.6"⟩]⟩ [] ⟨"4.5.6"⟩ [] rfl rfl rfl rfl,
   (C7_reference_resolution ⟨none, none⟩).2.2 rfl rfl⟩

/-- C1 counterexample: the LabelSpec
`{"A": ["x"], "B": ["y"], "C": ["x"]}` has two distinct labels ("A" and
"C") whose accepted-value lists share the value "x", yet the setter accepts
it without raising, because only consecutive items are intersected. -/
theorem C1_counterexample :
    setSeriesDescriptions [("A", ["x"]), ("B", ["y"]), ("C", ["x"])] =
      Except.ok [("A", ["x"]), ("B", ["y"]), ("C", ["x"])] ∧
    ("A", ["x"]) ∈ [("A", ["x"]), ("B", ["y"]), ("C", ["x"])] ∧
    ("C", ["x"]) ∈ [("A", ["x"]), ("B", ["y"]), ("C", ["x"])] ∧
    ("x" : String) ∈ ["x"] ∧ ("A" : String) ≠ "C" := by
  refine ⟨?_, by decide, by decide, by decide, by decide⟩
  rfl

theorem sliceLocationLe_trans :
    ∀ a b c : FileEntry, sliceLocationLe a b = true → sliceLocationLe b c = true →
      sliceLocationLe a c = true := by
  intro a b c hab hbc
  simp only [sliceLocationLe, decide_eq_true_eq] at *
  omega

theorem sliceLocationLe_total :
    ∀ a b : FileEntry, (sliceLocationLe a b || sliceLocationLe b a) = true := by
  intro a b
  simp only [sliceLocationLe, Bool.or_eq_true, decide_eq_true_eq]
  exact Int.le_total _ _

/-- C8: within one series bucket, a single-file bucket keeps its one entry
unchanged; a multi-file bucket whose headers all expose a slice location is
reordered into an ascending-by-slice-location permutation of itself; and a
multi-file bucket whose headers all lack the field keeps discovery order. -/
theorem C8_series_file_ordering (result : List FileEntry) :
    (∀ f, result = [f] → orderSeriesPairs result = Except.ok [f]) ∧
    (1 < result.length → (∀ f ∈ result, f.2.sliceLocation.isSome) →
      ∃ ordered, orderSeriesPairs result = Except.ok ordered ∧
        ordered.Perm result ∧
        ordered.Pairwise
          (fun f g => f.2.sliceLocation.getD 0 ≤ g.2.sliceLocation.getD 0)) ∧
    (1 < result.length → (∀ f ∈ result, f.2.sliceLocation = none) →
      orderSeriesPairs result = Except.ok result) := by
  refine ⟨?_, ?_, ?_⟩
  · intro f hf
    subst hf
    simp [orderSeriesPairs]
  · intro hlen hall
    match result with
    | [] => simp at hlen
    | [_] => simp at hlen
    | a :: b :: rest =>
      have hsome : b.2.sliceLocation.isSome := hall b (by simp)
      have hallb : (a :: b :: rest).all (fun f => f.2.sliceLocation.isSome) = true :=
        List.all_eq_true.mpr (fun f hf => hall f hf)
      refine ⟨(a :: b :: rest).mergeSort sliceLocationLe, ?_, ?_, ?_⟩
      · unfold orderSeriesPairs
        rw [if_pos (by simp)]
        simp only [show (a :: b :: rest).get? 1 = some b from rfl, hsome, hallb,
          if_true]
      · exact List.mergeSort_perm (a :: b :: rest) sliceLocationLe
      · have hsorted := List.sorted_mergeSort
          sliceLocationLe_trans sliceLocationLe_total (a :: b :: rest)
        exact hsorted.imp (fun h => by
          simpa [sliceLocationLe, decide_eq_true_eq] using h)
  · intro hlen hnone
    match result with
    | [] => simp at hlen
    | [_] => simp at hlen
    | a :: b :: rest =>
      have hnoneb : b.2.sliceLocation = none := hnone b (by simp)
      unfold orderSeriesPairs
      rw [if_pos (by simp)]
      simp only [show (a :: b :: rest).get? 1 = some b from rfl, hnoneb,
        Option.isSome_none, Bool.false_eq_true, if_false]

/-- C8 witness: a two-file bucket with slice locations 5 and 3 is ordered
ascending. -/
theorem C8_series_file_ordering_witness :
    ∃ ordered,
      orderSeriesPairs
        [("f1", ⟨"P", "s1", "CT", some "d", some 5, "d"⟩),
         ("f2", ⟨"P", "s1", "CT", some "d", some 3, "d"⟩)] = Except.ok ordered ∧
      ordered.Perm
        [("f1", ⟨"P", "s1", "CT", some "d", some 5, "d"⟩),
         ("f2", ⟨"P", "s1", "CT", some "d", some 3, "d"⟩)] ∧
      ordered.Pairwise
        (fun f g => f.2.sliceLocation.getD 0 ≤ g.2.sliceLocation.getD 0) :=
  (C8_series_file_ordering _).2.1 (by decide) (by decide)

theorem all_eq_of_dedup_length_eq_one {l : List String} (h : l.dedup.length = 1) :
    ∀ a ∈ l, ∀ b ∈ l, a = b := by
  rcases List.length_eq_one.mp h with ⟨x, hx⟩
  intro a ha b hb
  have ha2 : a ∈ l.dedup := List.mem_dedup.mpr ha
  have hb2 : b ∈ l.dedup := List.mem_dedup.mpr hb
  rw [hx] at ha2 hb2
  simp only [List.mem_singleton] at ha2 hb2
  rw [ha2, hb2]

/-- C5 (amended): a folder with zero DICOM files raises the configuration
error, and series grouping succeeds only when at least one series was found
and the *representative* (first) files of all discovered series report one
single patient ID — so an ID mismatch between representative files raises
the error before any series data is returned, while two patient IDs hidden
inside one series bucket are not detected (see the counterexample). -/
theorem C5_patient_id_validation (files : List FileEntry) :
    (files = [] → getSeriesDataDict files = Except.error .noDicomFiles) ∧
    (∀ out, getSeriesDataDict files = Except.ok out →
      out ≠ [] ∧
      ∀ s1 ∈ out, ∀ s2 ∈ out,
        s1.2.dicomHeader.patientID = s2.2.dicomHeader.patientID) := by
  constructor
  · intro h
    subst h
    rfl
  · intro out hout
    unfold getSeriesDataDict at hout
    rcases hb : buildSeriesEntries (groupBySeries files) with e | seriesDataList
    · rw [hb] at hout
      exact Except.noConfusion hout
    · rw [hb] at hout
      simp only [Except.bind, bind] at hout
      split_ifs at hout with h0 h1
      · injection hout with hout
        subst hout
        have hlen1 : (seriesDataList.map
            (fun s => s.2.dicomHeader.patientID)).dedup.length = 1 := by
          omega
        constructor
        · intro hnil
          subst hnil
          simp at hlen1
        · intro s1 hs1 s2 hs2
          exact all_eq_of_dedup_length_eq_one hlen1 _
            (List.mem_map_of_mem _ hs1) _ (List.mem_map_of_mem _ hs2)

/-- C5 witness: the empty folder raises the no-DICOM-files error. -/
theorem C5_patient_id_validation_witness :
    getSeriesDataDict [] = Except.error .noDicomFiles :=
  (C5_patient_id_validation []).1 rfl

/-- C5 counterexample: a folder with two files of the *same* series whose
headers report two distinct patient IDs ("A" and "B") is grouped
successfully — only the representative (first) file of each series is
re-read for the patient ID check, so the mismatch goes undetected and no
configuration error is raised. -/
theorem C5_counterexample :
    (("fA", (⟨"A", "s1", "CT", some "d", none, "d"⟩ : DicomHeader)) : FileEntry).2.patientID ≠
      (("fB", (⟨"B", "s1", "CT", some "d", none, "d"⟩ : DicomHeader)) : FileEntry).2.patientID ∧
    getSeriesDataDict
      [("fA", ⟨"A", "s1", "CT", some "d", none, "d"⟩),
       ("fB", ⟨"B", "s1", "CT", some "d", none, "d"⟩)] =
      Except.ok
        [("s1", ⟨"d", ["fA", "fB"], ⟨"A", "s1", "CT", some "d", none, "d"⟩⟩)] := by
  exact ⟨by decide, by rfl⟩

theorem attachMatchingSegmentations_ok (image : ImageDataModel) :
    ∀ segs : List SegmentationFile,
      (∀ s ∈ segs, ∃ u, getSegmentationReferenceUid s.header = Except.ok u) →
      attachMatchingSegmentations image segs =
        Except.ok (segs.filter
          (fun s => resolvedReferenceUid s ==
            some image.dicomHeader.seriesInstanceUID)) := by
  intro segs
  induction segs with
  | nil => intro _; rfl
  | cons s rest ih =>
    intro hres
    obtain ⟨u, hu⟩ := hres s (by simp)
    have hrest := ih (fun t ht => hres t (by simp [ht]))
    simp only [attachMatchingSegmentations, hu, hrest, bind, Except.bind,
      List.filter_cons]
    by_cases heq : image.dicomHeader.seriesInstanceUID = u
    · have hpred : (resolvedReferenceUid s ==
          some image.dicomHeader.seriesInstanceUID) = true := by
        simp [resolvedReferenceUid, hu, Except.toOption, heq]
      rw [if_pos heq, hpred]
      simp
    · have hpred : (resolvedReferenceUid s ==
          some image.dicomHeader.seriesInstanceUID) = false := by
        simp [resolvedReferenceUid, hu, Except.toOption]
        exact fun hh => heq hh.symm
      rw [if_neg heq, hpred]
      simp

theorem defaultFactoryLoop_ok (segs : List SegmentationFile)
    (hres : ∀ s ∈ segs, ∃ u, getSegmentationReferenceUid s.header = Except.ok u) :
    ∀ imagesData : List ImageDataModel,
      defaultFactoryLoop segs imagesData =
        Except.ok (imagesData.map (fun image =>
          { image := image
            segmentations := segs.filter
              (fun s => resolvedReferenceUid s ==
                some image.dicomHeader.seriesInstanceUID) })) := by
  intro imagesData
  induction imagesData with
  | nil => rfl
  | cons image rest ih =>
    simp only [defaultFactoryLoop, attachMatchingSegmentations_ok image segs hres,
      ih, bind, Except.bind, List.map_cons]

theorem specificTagFactoryLoop_ok (tagValues : LabelSpec)
    (segs : List SegmentationFile) (erase : Bool)
    (hres : ∀ s ∈ segs, ∃ u, getSegmentationReferenceUid s.header = Except.ok u) :
    ∀ imagesData : List ImageDataModel,
      specificTagFactoryLoop tagValues segs erase imagesData =
        Except.ok
          (imagesData.filterMap (fun img =>
            (firstMatchingSeriesKey tagValues img.dicomHeader.tagValue).map
              (fun key =>
                { image := { img with seriesKey := some key }
                  segmentations := segs.filter
                    (fun s => resolvedReferenceUid s ==
                      some img.dicomHeader.seriesInstanceUID) })),
           if erase then
             (imagesData.filter (fun img =>
               (firstMatchingSeriesKey tagValues img.dicomHeader.tagValue).isNone)).flatMap
               (fun img => img.pathsToDicoms)
           else []) := by
  intro imagesData
  induction imagesData with
  | nil => cases erase <;> rfl
  | cons image rest ih =>
    rcases hfm : firstMatchingSeriesKey tagValues image.dicomHeader.tagValue with _ | key
    · simp only [specificTagFactoryLoop, hfm, ih, bind, Except.bind,
        List.filterMap_cons, List.filter_cons, Option.isNone_none, Option.map_none,
        if_true, List.flatMap_cons]
      cases erase <;> simp
    · simp only [specificTagFactoryLoop, hfm, ih,
        attachMatchingSegmentations_ok image segs hres, bind, Except.bind]
      simp [List.filterMap_cons, List.filter_cons, hfm]

/-- C3: for a patient with at least one kept image (so that the record
assembles at all — `patient_id` raises on an empty image list), both
factories succeed when every segmentation's reference UID resolves; every
segmentation whose resolved reference UID equals a kept image's series UID
appears in that image's attached-segmentation list with its multiplicity
preserved (the attached count equals its count among the patient's
segmentations), and a segmentation whose reference UID equals no *kept*
image's series UID — all images under the default strategy, only the
labeled ones under the tag-value strategy — is attached to no entry,
silently, without an error. -/
theorem C3_segmentation_attachment (pp : String)
    (imagesData : List ImageDataModel) (segs : List SegmentationFile)
    (tagValues : LabelSpec) (erase : Bool)
    (hres : ∀ s ∈ segs, ∃ u, getSegmentationReferenceUid s.header = Except.ok u)
    (hne : imagesData ≠ []) :
    (∃ pdm, defaultCreatePatientData pp imagesData segs = Except.ok pdm ∧
      (∀ e ∈ pdm.data, ∀ s ∈ segs,
        resolvedReferenceUid s = some e.image.dicomHeader.seriesInstanceUID →
        e.segmentations.count s = segs.count s) ∧
      (∀ s ∈ segs,
        (∀ img ∈ imagesData,
          resolvedReferenceUid s ≠ some img.dicomHeader.seriesInstanceUID) →
        ∀ e ∈ pdm.data, s ∉ e.segmentations)) ∧
    (∃ out, specificTagCreatePatientData pp tagValues segs erase imagesData =
        Except.ok out ∧
      (∀ e ∈ out.1.data, ∀ s ∈ segs,
        resolvedReferenceUid s = some e.image.dicomHeader.seriesInstanceUID →
        e.segmentations.count s = segs.count s) ∧
      (∀ s ∈ segs,
        (∀ img ∈ imagesData,
          (firstMatchingSeriesKey tagValues img.dicomHeader.tagValue).isSome →
          resolvedReferenceUid s ≠ some img.dicomHeader.seriesInstanceUID) →
        ∀ e ∈ out.1.data, s ∉ e.segmentations)) := by
  obtain ⟨img0, rest0, rfl⟩ : ∃ a l, imagesData = a :: l := by
    rcases imagesData with _ | ⟨a, l⟩
    · exact absurd rfl hne
    · exact ⟨a, l, rfl⟩
  constructor
  · refine ⟨_, by
      unfold defaultCreatePatientData
      rw [defaultFactoryLoop_ok segs hres]
      rfl, ?_, ?_⟩
    · intro e he s hs hmatch
      simp only [List.mem_map] at he
      obtain ⟨image, _, him⟩ := he
      subst him
      exact List.count_filter (by simp [hmatch])
    · intro s hs hnone e he
      simp only [List.mem_map] at he
      obtain ⟨image, himg, him⟩ := he
      subst him
      intro hmem
      have := List.of_mem_filter hmem
      rw [beq_iff_eq] at this
      exact hnone image himg this
  · refine ⟨_, by
      unfold specificTagCreatePatientData
      rw [specificTagFactoryLoop_ok tagValues segs erase hres (img0 :: rest0)]
      rfl, ?_, ?_⟩
    · intro e he s hs hmatch
      simp only [List.mem_filterMap] at he
      obtain ⟨img, _, hkey⟩ := he
      rcases hfm : firstMatchingSeriesKey tagValues img.dicomHeader.tagValue with _ | key
      · rw [hfm] at hkey
        exact Option.noConfusion hkey
      · rw [hfm] at hkey
        injection hkey with hkey
        subst hkey
        exact List.count_filter (by simpa using hmatch)
    · intro s hs hnone e he
      simp only [List.mem_filterMap] at he
      obtain ⟨img, himg, hkey⟩ := he
      rcases hfm : firstMatchingSeriesKey tagValues img.dicomHeader.tagValue with _ | key
      · rw [hfm] at hkey
        exact Option.noConfusion hkey
      · rw [hfm] at hkey
        injection hkey with hkey
        subst hkey
        intro hmem
        have := List.of_mem_filter hmem
        rw [beq_iff_eq] at this
        exact hnone img himg (by rw [hfm]; rfl) this

/-- C3 witness: one image, one matching segmentation and one orphan
segmentation — the matching one attaches, the orphan (whose reference UID
equals no kept image's series UID) attaches nowhere. -/
theorem C3_segmentation_attachment_witness :
    (∃ pdm, defaultCreatePatientData "/p"
        [{ dicomHeader := ⟨"P", "s1", "CT", some "d", none, "d"⟩,
           pathsToDicoms := ["f1"] }]
        [⟨"seg1", ⟨some [⟨"s1"⟩], none⟩⟩, ⟨"seg2", ⟨some [⟨"zz"⟩], none⟩⟩] =
        Except.ok pdm ∧
      (∀ e ∈ pdm.data, ∀ s ∈ [(⟨"seg1", ⟨some [⟨"s1"⟩], none⟩⟩ : SegmentationFile),
          ⟨"seg2", ⟨some [⟨"zz"⟩], none⟩⟩],
        resolvedReferenceUid s = some e.image.dicomHeader.seriesInstanceUID →
        e.segmentations.count s =
          ([(⟨"seg1", ⟨some [⟨"s1"⟩], none⟩⟩ : SegmentationFile),
            ⟨"seg2", ⟨some [⟨"zz"⟩], none⟩⟩]).count s) ∧
      (∀ s ∈ [(⟨"seg1", ⟨some [⟨"s1"⟩], none⟩⟩ : SegmentationFile),
          ⟨"seg2", ⟨some [⟨"zz"⟩], none⟩⟩],
        (∀ img ∈ [({ dicomHeader := ⟨"P", "s1", "CT", some "d", none, "d"⟩,
                     pathsToDicoms := ["f1"] } : ImageDataModel)],
          resolvedReferenceUid s ≠ some img.dicomHeader.seriesInstanceUID) →
        ∀ e ∈ pdm.data, s ∉ e.segmentations)) ∧
    (∃ out, specificTagCreatePatientData "/p" [("CT_LABEL", ["d"])]
        [⟨"seg1", ⟨some [⟨"s1"⟩], none⟩⟩, ⟨"seg2", ⟨some [⟨"zz"⟩], none⟩⟩] false
        [{ dicomHeader := ⟨"P", "s1", "CT", some "d", none, "d"⟩,
           pathsToDicoms := ["f1"] }] = Except.ok out ∧
      (∀ e ∈ out.1.data, ∀ s ∈ [(⟨"seg1", ⟨some [⟨"s1"⟩], none⟩⟩ : SegmentationFile),
          ⟨"seg2", ⟨some [⟨"zz"⟩], none⟩⟩],
        resolvedReferenceUid s = some e.image.dicomHeader.seriesInstanceUID →
        e.segmentations.count s =
          ([(⟨"seg1", ⟨some [⟨"s1"⟩], none⟩⟩ : SegmentationFile),
            ⟨"seg2", ⟨some [⟨"zz"⟩], none⟩⟩]).count s) ∧
      (∀ s ∈ [(⟨"seg1", ⟨some [⟨"s1"⟩], none⟩⟩ : SegmentationFile),
          ⟨"seg2", ⟨some [⟨"zz"⟩], none⟩⟩],
        (∀ img ∈ [({ dicomHeader := ⟨"P", "s1", "CT", some "d", none, "d"⟩,
                     pathsToDicoms := ["f1"] } : ImageDataModel)],
          (firstMatchingSeriesKey [("CT_LABEL", ["d"])]
            img.dicomHeader.tagValue).isSome →
          resolvedReferenceUid s ≠ some img.dicomHeader.seriesInstanceUID) →
        ∀ e ∈ out.1.data, s ∉ e.segmentations)) :=
  C3_segmentation_attachment "/p"
    [{ dicomHeader := ⟨"P", "s1", "CT", some "d", none, "d"⟩,
       pathsToDicoms := ["f1"] }]
    [⟨"seg1", ⟨some [⟨"s1"⟩], none⟩⟩, ⟨"seg2", ⟨some [⟨"zz"⟩], none⟩⟩]
    [("CT_LABEL", ["d"])] false
    (by
      intro s hs
      simp only [List.mem_cons, List.not_mem_nil, or_false] at hs
      rcases hs with rfl | rfl
      · exact ⟨"s1", rfl⟩
      · exact ⟨"zz", rfl⟩)
    (by decide)

/-- C6: the erase-unused-DICOM-files option defaults to disabled; when
disabled the tag-value factory's image loop removes no file (and so does
the wrapping `create_patient_data` whenever it succeeds); when enabled the
loop removes exactly the files of the image series that matched no label
(so the files of labeled images, being files of no unmatched series, are
never removed); and the default factory removes nothing even when the
option is enabled. -/
theorem C6_erase_unused_dicom_files (ps : List String) (pp : String)
    (tagValues : LabelSpec) (segs : List SegmentationFile)
    (imagesData : List ImageDataModel)
    (hres : ∀ s ∈ segs, ∃ u, getSegmentationReferenceUid s.header = Except.ok u) :
    ({ pathsToPatientsFolders := ps } : PatientsDataExtractor).eraseUnusedDicomFiles
        = false ∧
    (∃ out, specificTagFactoryLoop tagValues segs false imagesData =
        Except.ok out ∧ out.2 = []) ∧
    (∃ out, specificTagFactoryLoop tagValues segs true imagesData =
        Except.ok out ∧
      out.2 = (imagesData.filter (fun img =>
          (firstMatchingSeriesKey tagValues img.dicomHeader.tagValue).isNone)).flatMap
          (fun img => img.pathsToDicoms) ∧
      (∀ img ∈ imagesData,
        (firstMatchingSeriesKey tagValues img.dicomHeader.tagValue).isSome →
        ∀ p ∈ img.pathsToDicoms,
          (∀ other ∈ imagesData,
            (firstMatchingSeriesKey tagValues other.dicomHeader.tagValue).isNone →
            p ∉ other.pathsToDicoms) →
          p ∉ out.2)) ∧
    (∀ out, specificTagCreatePatientData pp tagValues segs false imagesData =
      Except.ok out → out.2 = []) ∧
    (∀ res, createPatientData pp none imagesData segs true = Except.ok res →
      res.2 = []) := by
  refine ⟨rfl, ?_, ?_, ?_, ?_⟩
  · exact ⟨_, specificTagFactoryLoop_ok tagValues segs false hres imagesData, rfl⟩
  · refine ⟨_, specificTagFactoryLoop_ok tagValues segs true hres imagesData,
      rfl, ?_⟩
    intro img _ _ p _ hdisj hmem
    simp only [if_true, List.mem_flatMap, List.mem_filter] at hmem
    obtain ⟨other, ⟨hother, hnone⟩, hp⟩ := hmem
    exact hdisj other hother hnone hp
  · intro out hout
    unfold specificTagCreatePatientData at hout
    rw [specificTagFactoryLoop_ok tagValues segs false hres imagesData] at hout
    rcases hpid : factoryPatientId imagesData with e | pid
    · rw [hpid] at hout
      exact Except.noConfusion hout
    · rw [hpid] at hout
      injection hout with hout
      rw [← hout]
      rfl
  · intro res hres2
    unfold createPatientData patientDataQueryStrategy at hres2
    unfold defaultCreatePatientData at hres2
    rw [defaultFactoryLoop_ok segs hres imagesData] at hres2
    rcases hpid : factoryPatientId imagesData with e | pid
    · rw [hpid] at hres2
      exact Except.noConfusion hres2
    · rw [hpid] at hres2
      simp only [Except.map] at hres2
      injection hres2 with hres2
      rw [← hres2]

/-- C6 witness: a matching and a non-matching image; with the option
enabled, exactly the non-matching image's file is removed; with it
disabled, nothing is. -/
theorem C6_erase_unused_dicom_files_witness :
    ({ pathsToPatientsFolders := ["p1"] } : PatientsDataExtractor).eraseUnusedDicomFiles
        = false ∧
    (∃ out, specificTagFactoryLoop [("CT_LABEL", ["d"])] [] false
        [{ dicomHeader := ⟨"P", "s1", "CT", some "d", none, "d"⟩,
           pathsToDicoms := ["f1"] },
         { dicomHeader := ⟨"P", "s2", "CT", some "x", none, "x"⟩,
           pathsToDicoms := ["f2"] }] = Except.ok out ∧ out.2 = []) ∧
    (∃ out, specificTagFactoryLoop [("CT_LABEL", ["d"])] [] true
        [{ dicomHeader := ⟨"P", "s1", "CT", some "d", none, "d"⟩,
           pathsToDicoms := ["f1"] },
         { dicomHeader := ⟨"P", "s2", "CT", some "x", none, "x"⟩,
           pathsToDicoms := ["f2"] }] = Except.ok out ∧
      out.2 = (([{ dicomHeader := ⟨"P", "s1", "CT", some "d", none, "d"⟩,
                   pathsToDicoms := ["f1"] },
                 { dicomHeader := ⟨"P", "s2", "CT", some "x", none, "x"⟩,
                   pathsToDicoms := ["f2"] }] : List ImageDataModel).filter (fun img =>
          (firstMatchingSeriesKey [("CT_LABEL", ["d"])]
            img.dicomHeader.tagValue).isNone)).flatMap
          (fun img => img.pathsToDicoms) ∧
      (∀ img ∈ [({ dicomHeader := ⟨"P", "s1", "CT", some "d", none, "d"⟩,
                   pathsToDicoms := ["f1"] } : ImageDataModel),
                { dicomHeader := ⟨"P", "s2", "CT", some "x", none, "x"⟩,
                  pathsToDicoms := ["f2"] }],
        (firstMatchingSeriesKey [("CT_LABEL", ["d"])]
          img.dicomHeader.tagValue).isSome →
        ∀ p ∈ img.pathsToDicoms,
          (∀ other ∈ [({ dicomHeader := ⟨"P", "s1", "CT", some "d", none, "d"⟩,
                         pathsToDicoms := ["f1"] } : ImageDataModel),
                      { dicomHeader := ⟨"P", "s2", "CT", some "x", none, "x"⟩,
                        pathsToDicoms := ["f2"] }],
            (firstMatchingSeriesKey [("CT_LABEL", ["d"])]
              other.dicomHeader.tagValue).isNone →
            p ∉ other.pathsToDicoms) →
          p ∉ out.2)) ∧
    (∀ out, specificTagCreatePatientData "/p" [("CT_LABEL", ["d"])] [] false
        [{ dicomHeader := ⟨"P", "s1", "CT", some "d", none, "d"⟩,
           pathsToDicoms := ["f1"] },
         { dicomHeader := ⟨"P", "s2", "CT", some "x", none, "x"⟩,
           pathsToDicoms := ["f2"] }] = Except.ok out → out.2 = []) ∧
    (∀ res, createPatientData "/p" none
        [{ dicomHeader := ⟨"P", "s1", "CT", some "d", none, "d"⟩,
           pathsToDicoms := ["f1"] },
         { dicomHeader := ⟨"P", "s2", "CT", some "x", none, "x"⟩,
           pathsToDicoms := ["f2"] }] [] true = Except.ok res →
      res.2 = []) :=
  C6_erase_unused_dicom_files ["p1"] "/p" [("CT_LABEL", ["d"])] []
    [{ dicomHeader := ⟨"P", "s1", "CT", some "d", none, "d"⟩,
       pathsToDicoms := ["f1"] },
     { dicomHeader := ⟨"P", "s2", "CT", some "x", none, "x"⟩,
       pathsToDicoms := ["f2"] }]
    (fun s hs => absurd hs (List.not_mem_nil s))

theorem specificTagFactoryLoop_ok_entries (tagValues : LabelSpec)
    (segs : List SegmentationFile) (erase : Bool)
    (hres : ∀ s ∈ segs, ∃ u, getSegmentationReferenceUid s.header = Except.ok u)
    (imagesData : List ImageDataModel) :
    specificTagFactoryLoop tagValues segs erase imagesData =
      Except.ok (specificTagOutputEntries tagValues segs imagesData,
        if erase then
          (imagesData.filter (fun img =>
            (firstMatchingSeriesKey tagValues img.dicomHeader.tagValue).isNone)).flatMap
            (fun img => img.pathsToDicoms)
        else []) :=
  specificTagFactoryLoop_ok tagValues segs erase hres imagesData

theorem mem_specificTagOutputEntries {tagValues : LabelSpec}
    {segs : List SegmentationFile} {imagesData : List ImageDataModel}
    {e : ImageAndSegmentationDataModel}
    (he : e ∈ specificTagOutputEntries tagValues segs imagesData) :
    e.image.dicomHeader.seriesInstanceUID ∈
      imagesData.map (fun i => i.dicomHeader.seriesInstanceUID) ∧
    e.image.seriesKey =
      firstMatchingSeriesKey tagValues e.image.dicomHeader.tagValue := by
  simp only [specificTagOutputEntries, List.mem_filterMap] at he
  obtain ⟨img, himg, hmap⟩ := he
  rcases hfm : firstMatchingSeriesKey tagValues img.dicomHeader.tagValue with _ | key
  · rw [hfm] at hmap
    exact Option.noConfusion hmap
  · rw [hfm] at hmap
    injection hmap with hmap
    subst hmap
    refine ⟨?_, by simp [hfm]⟩
    show img.dicomHeader.seriesInstanceUID ∈ _
    exact List.mem_map_of_mem _ himg

theorem specificTagOutputEntries_cons_none {tagValues : LabelSpec}
    {segs : List SegmentationFile} {a : ImageDataModel}
    {rest : List ImageDataModel}
    (h : firstMatchingSeriesKey tagValues a.dicomHeader.tagValue = none) :
    specificTagOutputEntries tagValues segs (a :: rest) =
      specificTagOutputEntries tagValues segs rest := by
  simp only [specificTagOutputEntries, List.filterMap_cons]
  rw [h]
  rfl

theorem specificTagOutputEntries_cons_some {tagValues : LabelSpec}
    {segs : List SegmentationFile} {a : ImageDataModel} {key : String}
    {rest : List ImageDataModel}
    (h : firstMatchingSeriesKey tagValues a.dicomHeader.tagValue = some key) :
    specificTagOutputEntries tagValues segs (a :: rest) =
      { image := { a with seriesKey := some key }
        segmentations := segs.filter (fun s =>
          resolvedReferenceUid s ==
            some a.dicomHeader.seriesInstanceUID) } ::
        specificTagOutputEntries tagValues segs rest := by
  simp only [specificTagOutputEntries, List.filterMap_cons]
  rw [h]
  rfl

theorem filter_specificTagOutputEntries (tagValues : LabelSpec)
    (segs : List SegmentationFile) :
    ∀ imagesData : List ImageDataModel,
      (imagesData.map (fun i => i.dicomHeader.seriesInstanceUID)).Nodup →
      ∀ img ∈ imagesData,
        (specificTagOutputEntries tagValues segs imagesData).filter (fun e =>
            e.image.dicomHeader.seriesInstanceUID ==
              img.dicomHeader.seriesInstanceUID) =
          (match firstMatchingSeriesKey tagValues img.dicomHeader.tagValue with
           | some key =>
             [{ image := { img with seriesKey := some key }
                segmentations := segs.filter (fun s =>
                  resolvedReferenceUid s ==
                    some img.dicomHeader.seriesInstanceUID) }]
           | none => []) := by
  intro imagesData
  induction imagesData with
  | nil => intro _ img himg; exact absurd himg (List.not_mem_nil img)
  | cons a rest ih =>
    intro hnodup img himg
    rw [List.map_cons, List.nodup_cons] at hnodup
    obtain ⟨ha, hrest⟩ := hnodup
    have hfilterRest : ∀ img2 : ImageDataModel,
        img2.dicomHeader.seriesInstanceUID ∉
          rest.map (fun i => i.dicomHeader.seriesInstanceUID) →
        (specificTagOutputEntries tagValues segs rest).filter (fun e =>
            e.image.dicomHeader.seriesInstanceUID ==
              img2.dicomHeader.seriesInstanceUID) = [] := by
      intro img2 hnot
      apply List.filter_eq_nil_iff.mpr
      intro e heMem
      have huid := (mem_specificTagOutputEntries heMem).1
      intro hbeq
      rw [beq_iff_eq] at hbeq
      rw [hbeq] at huid
      exact hnot huid
    rcases List.mem_cons.mp himg with rfl | himgRest
    · rcases hfm : firstMatchingSeriesKey tagValues img.dicomHeader.tagValue with _ | key
      · rw [specificTagOutputEntries_cons_none hfm]
        exact hfilterRest img ha
      · rw [specificTagOutputEntries_cons_some hfm, List.filter_cons,
          if_pos (by simp), hfilterRest img ha]
    · have hne : a.dicomHeader.seriesInstanceUID ≠ img.dicomHeader.seriesInstanceUID := by
        intro hEq
        rw [hEq] at ha
        exact ha (List.mem_map_of_mem _ himgRest)
      rcases hfm : firstMatchingSeriesKey tagValues a.dicomHeader.tagValue with _ | key
      · rw [specificTagOutputEntries_cons_none hfm]
        exact ih hrest img himgRest
      · rw [specificTagOutputEntries_cons_some hfm, List.filter_cons,
          if_neg (by simpa using hne)]
        exact ih hrest img himgRest

/-- C10: under the tag-value strategy (with resolvable segmentations and
distinct series UIDs), each image series contributes at most one output
entry — exactly one when its tag value is accepted by some label, none
otherwise — and the entry's assigned label is the *first* label in
LabelSpec insertion order whose accepted-value list contains the image's
tag value, even when several labels accept that value. -/
theorem C10_first_label_wins (tagValues : LabelSpec) (segs : List SegmentationFile)
    (erase : Bool) (imagesData : List ImageDataModel)
    (hres : ∀ s ∈ segs, ∃ u, getSegmentationReferenceUid s.header = Except.ok u)
    (hnodup : (imagesData.map (fun i => i.dicomHeader.seriesInstanceUID)).Nodup) :
    ∃ out, specificTagFactoryLoop tagValues segs erase imagesData = Except.ok out ∧
      (∀ e ∈ out.1,
        e.image.seriesKey =
          firstMatchingSeriesKey tagValues e.image.dicomHeader.tagValue) ∧
      (∀ img ∈ imagesData,
        out.1.filter (fun e =>
            e.image.dicomHeader.seriesInstanceUID ==
              img.dicomHeader.seriesInstanceUID) =
          (match firstMatchingSeriesKey tagValues img.dicomHeader.tagValue with
           | some key =>
             [{ image := { img with seriesKey := some key }
                segmentations := segs.filter (fun s =>
                  resolvedReferenceUid s ==
                    some img.dicomHeader.seriesInstanceUID) }]
           | none => [])) := by
  refine ⟨_, specificTagFactoryLoop_ok_entries tagValues segs erase hres imagesData,
    ?_, ?_⟩
  · intro e he
    exact (mem_specificTagOutputEntries he).2
  · intro img himg
    exact filter_specificTagOutputEntries tagValues segs imagesData hnodup img himg

/-- C10 witness: an image whose tag value "d" is accepted by both labels is
output once, labeled with the first label. -/
theorem C10_first_label_wins_witness :
    ∃ out, specificTagFactoryLoop [("FIRST", ["d"]), ("SECOND", ["d"])] [] false
        [{ dicomHeader := ⟨"P", "s1", "CT", some "d", none, "d"⟩,
           pathsToDicoms := ["f1"] }] = Except.ok out ∧
      (∀ e ∈ out.1,
        e.image.seriesKey =
          firstMatchingSeriesKey [("FIRST", ["d"]), ("SECOND", ["d"])]
            e.image.dicomHeader.tagValue) ∧
      (∀ img ∈ [({ dicomHeader := ⟨"P", "s1", "CT", some "d", none, "d"⟩,
                   pathsToDicoms := ["f1"] } : ImageDataModel)],
        out.1.filter (fun e =>
            e.image.dicomHeader.seriesInstanceUID ==
              img.dicomHeader.seriesInstanceUID) =
          (match firstMatchingSeriesKey [("FIRST", ["d"]), ("SECOND", ["d"])]
              img.dicomHeader.tagValue with
           | some key =>
             [{ image := { img with seriesKey := some key }
                segmentations := List.filter (fun s =>
                  resolvedReferenceUid s ==
                    some img.dicomHeader.seriesInstanceUID) [] }]
           | none => [])) :=
  C10_first_label_wins [("FIRST", ["d"]), ("SECOND", ["d"])] [] false
    [{ dicomHeader := ⟨"P", "s1", "CT", some "d", none, "d"⟩,
       pathsToDicoms := ["f1"] }]
    (fun s hs => absurd hs (List.not_mem_nil s)) (by decide)

theorem getImagesData_cons (decodeOk : SeriesData → Bool)
    (removeSegmentations : Bool) (kv : String × SeriesData)
    (rest : List (String × SeriesData)) :
    getImagesData decodeOk removeSegmentations (kv :: rest) =
      if removeSegmentations && availableModalities.contains kv.2.dicomHeader.modality then
        getImagesData decodeOk removeSegmentations rest
      else if kv.2.seriesDescription = "Unknown" then
        getImagesData decodeOk removeSegmentations rest
      else if decodeOk kv.2 then
        { dicomHeader := kv.2.dicomHeader
          pathsToDicoms := kv.2.pathsToDicomsFromSeries } ::
          getImagesData decodeOk removeSegmentations rest
      else getImagesData decodeOk removeSegmentations rest := by
  simp only [getImagesData, List.filterMap_cons]
  split_ifs <;> rfl

theorem getImagesData_map_header (decodeOk : SeriesData → Bool) :
    ∀ seriesDataList : List (String × SeriesData),
      (getImagesData decodeOk true seriesDataList).map (fun img => img.dicomHeader) =
        (seriesDataList.filter (fun kv =>
          !(availableModalities.contains kv.2.dicomHeader.modality) &&
          !(kv.2.seriesDescription == "Unknown") && decodeOk kv.2)).map
          (fun kv => kv.2.dicomHeader) := by
  intro seriesDataList
  induction seriesDataList with
  | nil => rfl
  | cons kv rest ih =>
    rw [getImagesData_cons, List.filter_cons]
    by_cases h1 : kv.2.dicomHeader.modality ∈ availableModalities
    · rw [if_pos (by simp [h1]), if_neg (by simp [h1])]
      exact ih
    · by_cases h2 : kv.2.seriesDescription = "Unknown"
      · rw [if_neg (by simp [h1]), if_pos h2, if_neg (by simp [h2])]
        exact ih
      · by_cases h3 : decodeOk kv.2
        · rw [if_neg (by simp [h1]), if_neg h2, if_pos h3,
            if_pos (by simp [h1, h2, h3]), List.map_cons, List.map_cons, ih]
        · rw [if_neg (by simp [h1]), if_neg h2, if_neg h3, if_neg (by simp [h3])]
          exact ih

theorem mem_getImagesData_keys {decodeOk : SeriesData → Bool}
    {removeSegmentations : Bool} {seriesDataList : List (String × SeriesData)}
    {img : ImageDataModel}
    (h : img ∈ getImagesData decodeOk removeSegmentations seriesDataList) :
    img.seriesKey = none ∧ img.transformsKey = none := by
  simp only [getImagesData, List.mem_filterMap] at h
  obtain ⟨kv, _, hkv⟩ := h
  split_ifs at hkv
  · injection hkv with hkv
    subst hkv
    exact ⟨rfl, rfl⟩

theorem setTransformsKeysLoop_modality :
    ∀ (data : List ImageAndSegmentationDataModel) (keys : List String),
      (∀ e ∈ data, e.image.seriesKey = none) →
      (∀ e ∈ data, keys.contains e.image.dicomHeader.modality = false) →
      (data.map (fun e => e.image.dicomHeader.modality)).Nodup →
      ∃ out, setTransformsKeysLoop keys data = Except.ok out ∧
        out.map (fun e => e.image.transformsKey) =
          data.map (fun e => some e.image.dicomHeader.modality) := by
  intro data
  induction data with
  | nil => exact fun _ _ _ _ => ⟨[], rfl, rfl⟩
  | cons e rest ih =>
    intro keys hkey hfree hnodup
    rw [List.map_cons, List.nodup_cons] at hnodup
    obtain ⟨hm, hrest⟩ := hnodup
    have hkeyE : e.image.seriesKey = none := hkey e (by simp)
    have hfreeE : keys.contains e.image.dicomHeader.modality = false :=
      hfree e (by simp)
    obtain ⟨out, hout, hmap⟩ := ih (keys ++ [e.image.dicomHeader.modality])
      (fun e2 h2 => hkey e2 (by simp [h2]))
      (fun e2 h2 => by
        have h2free : e2.image.dicomHeader.modality ∉ keys := by
          simpa using hfree e2 (by simp [h2])
        have h2ne : e2.image.dicomHeader.modality ≠ e.image.dicomHeader.modality := by
          intro hEq
          apply hm
          rw [← hEq]
          exact List.mem_map_of_mem _ h2
        simp [h2free, h2ne])
      hrest
    refine ⟨{ e with image := { e.image with
        transformsKey := some e.image.dicomHeader.modality } } :: out, ?_, ?_⟩
    · simp only [setTransformsKeysLoop, hkeyE, hfreeE, Bool.false_eq_true,
        if_false, hout, bind, Except.bind]
    · simp only [List.map_cons, hmap]

/-- C2 (amended): the default strategy is chosen precisely when the
tag-values dict is absent or empty; under it, for a patient with at least
one kept image, the assembled record contains exactly one entry, in
discovery order, per discovered non-segmentation series *whose series
description is not the "Unknown" sentinel and whose volume decodes*
(unknown-description and undecodable series are silently dropped by
`get_images_data`); every entry's image keeps `series_key` unset, so the
downstream key assignment (`set_transforms_keys`) labels each image with
its own modality code, provided the kept modalities are pairwise distinct.
When every discovered series is dropped, assembly aborts with the
`patient_id` IndexError instead of producing an empty record. -/
theorem C2_default_strategy (pp : String) (tagValues : Option LabelSpec)
    (decodeOk : SeriesData → Bool) (seriesDataList : List (String × SeriesData))
    (segs : List SegmentationFile) :
    (patientDataQueryStrategy tagValues = .default ↔
      tagValues = none ∨ tagValues = some []) ∧
    ((∀ s ∈ segs, ∃ u, getSegmentationReferenceUid s.header = Except.ok u) →
      patientDataQueryStrategy tagValues = .default →
      getImagesData decodeOk true seriesDataList ≠ [] →
      ∃ pdm, createPatientData pp tagValues
          (getImagesData decodeOk true seriesDataList) segs true =
          Except.ok (pdm, []) ∧
        pdm.data.map (fun e => e.image.dicomHeader) =
          (seriesDataList.filter (fun kv =>
            !(availableModalities.contains kv.2.dicomHeader.modality) &&
            !(kv.2.seriesDescription == "Unknown") && decodeOk kv.2)).map
            (fun kv => kv.2.dicomHeader) ∧
        (∀ e ∈ pdm.data, e.image.seriesKey = none) ∧
        ((pdm.data.map (fun e => e.image.dicomHeader.modality)).Nodup →
          ∃ keyed, setTransformsKeys pdm.data = Except.ok keyed ∧
            keyed.map (fun e => e.image.transformsKey) =
              pdm.data.map (fun e => some e.image.dicomHeader.modality))) ∧
    (patientDataQueryStrategy tagValues = .default →
      getImagesData decodeOk true seriesDataList = [] →
      createPatientData pp tagValues
        (getImagesData decodeOk true seriesDataList) segs true =
        Except.error .emptyImagesData) := by
  refine ⟨?_, ?_, ?_⟩
  · rcases tagValues with _ | (_ | ⟨kv, rest⟩)
    · simp [patientDataQueryStrategy]
    · simp [patientDataQueryStrategy]
    · simp [patientDataQueryStrategy]
  · intro hres hdef hneImages
    obtain ⟨img0, rest0, hsplit⟩ :
        ∃ a l, getImagesData decodeOk true seriesDataList = a :: l := by
      rcases h : getImagesData decodeOk true seriesDataList with _ | ⟨a, l⟩
      · exact absurd h hneImages
      · exact ⟨a, l, rfl⟩
    refine ⟨⟨img0.dicomHeader.patientID, pp,
      (getImagesData decodeOk true seriesDataList).map (fun image =>
        { image := image
          segmentations := segs.filter (fun s => resolvedReferenceUid s ==
            some image.dicomHeader.seriesInstanceUID) })⟩, ?_, ?_, ?_, ?_⟩
    · unfold createPatientData
      rw [hdef]
      unfold defaultCreatePatientData
      rw [defaultFactoryLoop_ok segs hres, hsplit]
      rfl
    · simp only [List.map_map]
      exact getImagesData_map_header decodeOk seriesDataList
    · intro e he
      simp only [List.mem_map] at he
      obtain ⟨img, himg, hei⟩ := he
      subst hei
      exact (mem_getImagesData_keys himg).1
    · intro hnodup
      apply setTransformsKeysLoop_modality _ []
      · intro e he
        simp only [List.mem_map] at he
        obtain ⟨img, himg, hei⟩ := he
        subst hei
        exact (mem_getImagesData_keys himg).1
      · intro e _
        rfl
      · exact hnodup
  · intro hdef hempty
    unfold createPatientData
    rw [hdef]
    unfold defaultCreatePatientData
    rw [hempty]
    rfl

/-- C2 witness: one CT series with a known description decodes into exactly
one entry, keyed by its modality. -/
theorem C2_default_strategy_witness :
    ∃ pdm, createPatientData "/p" none
        (getImagesData (fun _ => true) true
          [("s1", ⟨"d", ["f1"], ⟨"P", "s1", "CT", some "d", none, "d"⟩⟩)])
        [] true = Except.ok (pdm, []) ∧
      pdm.data.map (fun e => e.image.dicomHeader) =
        (([("s1", ⟨"d", ["f1"], ⟨"P", "s1", "CT", some "d", none, "d"⟩⟩)] :
            List (String × SeriesData)).filter (fun kv =>
          !(availableModalities.contains kv.2.dicomHeader.modality) &&
          !(kv.2.seriesDescription == "Unknown") && (fun _ => true) kv.2)).map
          (fun kv => kv.2.dicomHeader) ∧
      (∀ e ∈ pdm.data, e.image.seriesKey = none) ∧
      ((pdm.data.map (fun e => e.image.dicomHeader.modality)).Nodup →
        ∃ keyed, setTransformsKeys pdm.data = Except.ok keyed ∧
          keyed.map (fun e => e.image.transformsKey) =
            pdm.data.map (fun e => some e.image.dicomHeader.modality)) :=
  (C2_default_strategy "/p" none (fun _ => true)
      [("s1", ⟨"d", ["f1"], ⟨"P", "s1", "CT", some "d", none, "d"⟩⟩)] []).2.1
    (fun s hs => absurd hs (List.not_mem_nil s)) rfl (by decide)

/-- C2 counterexample: a patient folder with two discovered
non-segmentation series — a CT with the known description "d" and an MR
whose description is the "Unknown" sentinel — assembles into a record with
a single entry (the CT), not one entry per discovered non-segmentation
series: `get_images_data` silently skips unknown-description series.  And
when *every* discovered series has the "Unknown" sentinel, assembly does
not produce an empty record but aborts with the `patient_id` IndexError.
-/
theorem C2_counterexample :
    availableModalities.contains "CT" = false ∧
    availableModalities.contains "MR" = false ∧
    createPatientData "/p" none
      (getImagesData (fun _ => true) true
        [("s1", ⟨"d", ["f1"], ⟨"P", "s1", "CT", some "d", none, "d"⟩⟩),
         ("s2", ⟨"Unknown", ["f2"], ⟨"P", "s2", "MR", none, none, "Unknown"⟩⟩)])
      [] false =
      Except.ok (⟨"P", "/p",
        [{ image := { dicomHeader := ⟨"P", "s1", "CT", some "d", none, "d"⟩,
                      pathsToDicoms := ["f1"] } }]⟩, []) ∧
    createPatientData "/p" none
      (getImagesData (fun _ => true) true
        [("s2", ⟨"Unknown", ["f2"], ⟨"P", "s2", "MR", none, none, "Unknown"⟩⟩)])
      [] false = Except.error .emptyImagesData :=
  ⟨rfl, rfl, rfl, rfl⟩

theorem lookupTagValues_of_mem :
    ∀ {tagValues : LabelSpec} {k : String} {vs : List String},
      (tagValues.map Prod.fst).Nodup → (k, vs) ∈ tagValues →
      lookupTagValues tagValues k = vs := by
  intro tagValues
  induction tagValues with
  | nil => intro k vs _ hmem; exact absurd hmem (List.not_mem_nil (k, vs))
  | cons kv rest ih =>
    intro k vs hnodup hmem
    rw [List.map_cons, List.nodup_cons] at hnodup
    obtain ⟨hk, hrest⟩ := hnodup
    rcases List.mem_cons.mp hmem with rfl | hmemRest
    · simp [lookupTagValues, List.find?]
    · have hne : (kv.1 == k) = false := by
        rw [beq_eq_false_iff_ne]
        intro hEq
        apply hk
        rw [hEq]
        exact List.mem_map_of_mem Prod.fst hmemRest
      simp only [lookupTagValues, List.find?, hne]
      exact ih hrest hmemRest

/-- C4: every declared label none of whose accepted values occurs among the
patient's available tag values is recorded as failed (and only such labels
are), carrying the label name, its accepted values and the available tag
values in the per-patient `PatientWhoFailed` record; all labels are
checked, nothing raises, and the dataset assembly of `send` is computed
independently of the recorded failures. -/
theorem C4_per_label_misses (patientId patientPath : String)
    (tagValues : LabelSpec) (imagesDicomHeaders : List DicomHeader)
    (imagesData : List ImageDataModel) (segs : List SegmentationFile)
    (erase : Bool) :
    (∀ kv ∈ tagValues,
      (∀ v ∈ kv.2, v ∉ availableTagValues imagesDicomHeaders) →
      kv.1 ∈ checkAvailabilityOfGivenTagValue tagValues
        (availableTagValues imagesDicomHeaders)) ∧
    (∀ k ∈ checkAvailabilityOfGivenTagValue tagValues
        (availableTagValues imagesDicomHeaders),
      ∃ vs, (k, vs) ∈ tagValues ∧
        ∀ v ∈ vs, v ∉ availableTagValues imagesDicomHeaders) ∧
    (∀ kv ∈ tagValues, (tagValues.map Prod.fst).Nodup →
      (∀ v ∈ kv.2, v ∉ availableTagValues imagesDicomHeaders) →
      ∃ r, mkPatientWhoFailed patientId tagValues
          (availableTagValues imagesDicomHeaders) = some r ∧
        r.id = patientId ∧
        r.availableSeriesDescriptions = availableTagValues imagesDicomHeaders ∧
        (kv.1, kv.2) ∈ r.failedImages) ∧
    ((sendStep patientId patientPath (some tagValues) imagesDicomHeaders
        imagesData segs erase).2 =
      createPatientData patientPath (some tagValues) imagesData segs
        erase) := by
  have hmiss : ∀ kv : String × List String,
      (∀ v ∈ kv.2, v ∉ availableTagValues imagesDicomHeaders) →
      (kv.2.any (fun v =>
        (availableTagValues imagesDicomHeaders).contains v)) = false := by
    intro kv hnone
    rw [List.any_eq_false]
    intro v hv
    simp only [Bool.not_eq_true]
    rw [← Bool.not_eq_true]
    intro hcontains
    exact hnone v hv (List.elem_iff.mp hcontains)
  refine ⟨?_, ?_, ?_, rfl⟩
  · intro kv hkv hnone
    apply List.mem_filterMap.mpr
    exact ⟨kv, hkv, by rw [hmiss kv hnone]; rfl⟩
  · intro k hk
    obtain ⟨kv, hkv, hif⟩ := List.mem_filterMap.mp hk
    by_cases hany : (kv.2.any (fun v =>
        (availableTagValues imagesDicomHeaders).contains v)) = true
    · rw [if_pos hany] at hif
      exact Option.noConfusion hif
    · rw [if_neg hany] at hif
      injection hif with hif
      subst hif
      refine ⟨kv.2, hkv, ?_⟩
      intro v hv hvmem
      apply hany
      rw [List.any_eq_true]
      exact ⟨v, hv, List.elem_iff.mpr hvmem⟩
  · intro kv hkv hnodup hnone
    have hfailed : kv.1 ∈ checkAvailabilityOfGivenTagValue tagValues
        (availableTagValues imagesDicomHeaders) :=
      List.mem_filterMap.mpr ⟨kv, hkv, by rw [hmiss kv hnone]; rfl⟩
    have hnonempty : (checkAvailabilityOfGivenTagValue tagValues
        (availableTagValues imagesDicomHeaders)).isEmpty = false := by
      rcases hc : checkAvailabilityOfGivenTagValue tagValues
          (availableTagValues imagesDicomHeaders) with _ | ⟨a, l⟩
      · rw [hc] at hfailed
        exact absurd hfailed (List.not_mem_nil kv.1)
      · rfl
    refine ⟨⟨patientId,
      (checkAvailabilityOfGivenTagValue tagValues
        (availableTagValues imagesDicomHeaders)).map
        (fun k => (k, lookupTagValues tagValues k)),
      availableTagValues imagesDicomHeaders⟩, by
      simp only [mkPatientWhoFailed, hnonempty, Bool.false_eq_true, if_false], rfl, rfl, ?_⟩
    show (kv.1, kv.2) ∈ (checkAvailabilityOfGivenTagValue tagValues
      (availableTagValues imagesDicomHeaders)).map
        (fun k => (k, lookupTagValues tagValues k))
    have : (kv.1, kv.2) = (kv.1, lookupTagValues tagValues kv.1) := by
      rw [lookupTagValues_of_mem hnodup (by simpa using hkv)]
    rw [this]
    exact List.mem_map_of_mem _ hfailed

/-- C4 witness: the spec's Scenario A — label "CT_THORAX" accepts
"Thorax 1.0" but the patient's only series carries "Chest routine": the
label is recorded failed with its accepted and available values. -/
theorem C4_per_label_misses_witness :
    ∃ r, mkPatientWhoFailed "P" [("CT_THORAX", ["Thorax 1.0"])]
        (availableTagValues
          [⟨"P", "s1", "CT", some "Chest routine", none, "Chest routine"⟩]) =
        some r ∧
      r.id = "P" ∧
      r.availableSeriesDescriptions = availableTagValues
        [⟨"P", "s1", "CT", some "Chest routine", none, "Chest routine"⟩] ∧
      ("CT_THORAX", ["Thorax 1.0"]) ∈ r.failedImages :=
  (C4_per_label_misses "P" "/p" [("CT_THORAX", ["Thorax 1.0"])]
      [⟨"P", "s1", "CT", some "Chest routine", none, "Chest routine"⟩]
      [] [] false).2.2.1
    ("CT_THORAX", ["Thorax 1.0"]) (by decide) (by decide) (by decide)

/-- C9 (amended): with every patient folder consumed
(`current_index == len(self)`), `send` raises the end-of-sequence signal
(`StopIteration`, the default `typ` of `throw`) and produces no record;
before that it yields the next patient and advances the index; and *every*
exception `send` raises is that same `StopIteration` — a request past the
end (a further `send` on the unchanged, exhausted state) is signaled by the
identical end-of-sequence signal, not a distinct error. -/
theorem C9_iterator_exhaustion (ex : PatientsDataExtractor) :
    (ex.currentIndex = ex.pathsToPatientsFolders.length →
      ex.send = SendOutcome.raised PyException.stopIteration) ∧
    (ex.currentIndex < ex.pathsToPatientsFolders.length →
      ex.send = SendOutcome.yielded ex.currentIndex
        { ex with currentIndex := ex.currentIndex + 1 }) ∧
    (∀ e, ex.send = SendOutcome.raised e → e = PyException.stopIteration) := by
  refine ⟨?_, ?_, ?_⟩
  · intro h
    unfold PatientsDataExtractor.send
    rw [if_pos h]
    rfl
  · intro h
    unfold PatientsDataExtractor.send
    rw [if_neg (Nat.ne_of_lt h)]
  · intro e he
    unfold PatientsDataExtractor.send at he
    by_cases h : ex.currentIndex = ex.pathsToPatientsFolders.length
    · rw [if_pos h] at he
      injection he with he
      exact he.symm
    · rw [if_neg h] at he
      exact SendOutcome.noConfusion he

/-- C9 witness: an extractor over zero patient folders signals
end-of-sequence on `send`. -/
theorem C9_iterator_exhaustion_witness :
    ({ pathsToPatientsFolders := [] } : PatientsDataExtractor).send =
      SendOutcome.raised PyException.stopIteration :=
  (C9_iterator_exhaustion { pathsToPatientsFolders := [] }).1 rfl

/-- C9 counterexample: on the exhausted iterator, a further `send` — the
request past the end — raises `throwDefaultException`, which *is* the
normal end-of-sequence signal `StopIteration`; and since a raising `send`
leaves the state unchanged (the raise precedes the index increment), every
subsequent request raises that identical signal, so no distinct past-end
signal exists. -/
theorem C9_counterexample :
    ({ pathsToPatientsFolders := [] } : PatientsDataExtractor).send =
      SendOutcome.raised PatientsDataExtractor.throwDefaultException ∧
    PatientsDataExtractor.throwDefaultException = PyException.stopIteration :=
  ⟨rfl, rfl⟩

end Delia
